import Mathlib

/-!
# Verification of openstack_client_exporter

A shallow embedding of the Go sources of `openstack_client_exporter`
(`main.go`, with a flag-configured variant of the same file) together with
proofs about the embedded definitions.

Conventions:
* Go `time.Duration` values are `Int` nanoseconds; wall-clock instants are
  `Int` nanoseconds since the epoch.
* A Go `context.Context` produced by `context.WithTimeout` is modelled by
  its absolute deadline; "the context is done at time t" means the deadline
  is not after `t`.
* Fallible Go functions are embedded with `Except String` results.
* Side effects (Prometheus gauge writes, goroutine starts, `wg.Wait`,
  writing the HTTP response) are made explicit, either as returned state or
  as an event trace in source order.
-/

namespace OpenStackExporter

/-! ## Constants (from the `const` block of main.go and the flag defaults of
the flag-configured variant) -/

/-- One `time.Second` in nanoseconds (Go `time.Duration` unit). -/
def timeSecond : Int := 1000000000

/-- One `time.Minute` in nanoseconds. -/
def timeMinute : Int := 60 * timeSecond

/-- `defaultRequestTimeout = 59 * time.Second` (also the default of the
`-timeout` flag in the flag-configured variant). -/
def defaultRequestTimeout : Int := 59 * timeSecond

/-- `garbageCollectorSleep = 1 * time.Minute`. -/
def garbageCollectorSleep : Int := 1 * timeMinute

/-- `garbageCollectorResourceAge = 15 * time.Minute`. -/
def garbageCollectorResourceAge : Int := 15 * timeMinute

/-- `resourceTag = "openstack-client-exporter"`. -/
def resourceTag : String := "openstack-client-exporter"

/-- `program = "openstack_client"`. -/
def program : String := "openstack_client"

/-! ## Contexts -/

/-- A context created by `context.WithTimeout(context.Background(), d)`:
only its absolute deadline matters for this development. -/
structure Ctx where
  deadline : Int
  deriving DecidableEq, Repr

/-- `context.WithTimeout(context.Background(), d)` called at wall-clock
instant `now`. -/
def withTimeout (now d : Int) : Ctx := ⟨now + d⟩

/-- Whether `ctx.Done()` is closed at instant `t`: the deadline has been
reached. -/
def ctxDoneAt (c : Ctx) (t : Int) : Bool := decide (c.deadline ≤ t)

/-! ## The step timer (`step` in both variants)

```go
func step(ctx context.Context, timing prometheus.GaugeVec, name string) error {
    timing.With(prometheus.Labels{"step": name}).SetToCurrentTime()
    select {
    case <-ctx.Done():
        return fmt.Errorf("timeout after %s", name)
    default:
        return nil
    }
}
```

The gauge vector is a map from the `step` label to the published time; the
`error` result is `Option String` (`some` = non-nil error).  To reason
about blocking we also record the trace of effects the function performs,
in source order: the gauge write, then a *non-blocking* poll of
`ctx.Done()` (a `select` with a `default` arm never waits). -/

/-- An effect a probe helper can perform.  `waitDone` and `sleep` are the
blocking effects; `pollDone` is the non-blocking `select ... default` poll;
`setGauge` is a Prometheus gauge write. -/
inductive Effect where
  | setGauge (label : String) (time : Int)
  | pollDone
  | waitDone
  | sleep (d : Int)
  deriving DecidableEq, Repr

/-- Whether an effect can block the calling goroutine. -/
def Effect.blocking : Effect → Bool
  | .waitDone => true
  | .sleep _ => true
  | _ => false

/-- Result of one `step` call: the updated gauge vector, the returned
error (`none` = nil), and the effect trace. -/
structure StepResult where
  gauge : String → Option Int
  err : Option String
  effects : List Effect

/-- `step(ctx, timing, name)` executed at wall-clock instant `now`, with
`timing` the current gauge vector. -/
def step (ctx : Ctx) (now : Int) (timing : String → Option Int)
    (name : String) : StepResult :=
  let timing' : String → Option Int :=
    fun l => if l = name then some now else timing l
  { gauge := timing'
    err :=
      if ctxDoneAt ctx now then some ("timeout after " ++ name) else none
    effects := [Effect.setGauge name now, Effect.pollDone] }

/-! ## `metricsHandler`, as an event trace

Both variants build a registry, create one `context.WithTimeout`, start
probe goroutines, and finally serve the gathered metrics over HTTP.  The
trace records, in source order, goroutine starts, `wg.Wait()` calls, and
the final `promhttp ... ServeHTTP(w, r)`. -/

/-- The two probe units the program can start. -/
inductive Probe where
  | spawn
  | objectStore
  deriving DecidableEq, Repr

/-- Events of one `metricsHandler` invocation, in source order. -/
inductive HEvent where
  | start (p : Probe)
  | waitAll
  | serve
  deriving DecidableEq, Repr

/-- Trace of the constant-configured `metricsHandler` (main.go): both
goroutines are started unconditionally, then `wg.Wait()`, then the
response is served. -/
def metricsHandlerConstTrace : List HEvent :=
  [HEvent.start Probe.spawn, HEvent.start Probe.objectStore,
   HEvent.waitAll, HEvent.serve]

/-- Trace of the flag-configured `metricsHandler`: the spawn goroutine is
started when `disableInstance != true`; the object-store goroutine is
started when `disableObjectStore != true`, and `wg.Wait()` sits *inside*
that same `if` block, after the goroutine start; finally the response is
served. -/
def metricsHandlerFlagTrace (disableInstance disableObjectStore : Bool) :
    List HEvent :=
  (if disableInstance ≠ true then [HEvent.start Probe.spawn] else []) ++
  (if disableObjectStore ≠ true then
     [HEvent.start Probe.objectStore, HEvent.waitAll] else []) ++
  [HEvent.serve]

/-- Walk a handler trace keeping the list of started goroutines not yet
covered by a `wg.Wait()`; stop at the first `serve` event and return the
goroutines that may still be running when the response is written. -/
def pendingAux : List Probe → List HEvent → List Probe
  | pending, [] => pending
  | pending, HEvent.start p :: rest => pendingAux (pending ++ [p]) rest
  | _, HEvent.waitAll :: rest => pendingAux [] rest
  | pending, HEvent.serve :: _ => pending

/-- The probe goroutines that are not guaranteed to have returned when the
metrics response is written. -/
def pendingAtServe (tr : List HEvent) : List Probe := pendingAux [] tr

/-- The probes started during a handler trace, in order. -/
def startedProbes : List HEvent → List Probe
  | [] => []
  | HEvent.start p :: rest => p :: startedProbes rest
  | _ :: rest => startedProbes rest

/-! ## Context plumbing of `metricsHandler`

A data-flow view of the same handler: the single context created by
`context.WithTimeout(context.Background(), requestTimeout)` and, for each
started probe goroutine, the context value it is invoked with
(`spawnMain(ctx, registry)` / `objectStoreMain(ctx, registry)`). -/

/-- The context the handler creates, and each started probe paired with
the context argument it receives.  `disableInstance`/`disableObjectStore`
guard the starts in the flag-configured variant; the constant-configured
variant is the instance `false false` (both goroutines unconditional). -/
def metricsHandlerCtxPlumbing (now requestTimeout : Int)
    (disableInstance disableObjectStore : Bool) :
    Ctx × List (Probe × Ctx) :=
  let ctx := withTimeout now requestTimeout
  (ctx,
   (if disableInstance ≠ true then [(Probe.spawn, ctx)] else []) ++
   (if disableObjectStore ≠ true then [(Probe.objectStore, ctx)] else []))

/-! ## Request-timeout selection (constant-configured main.go)

```go
requestTimeout := defaultRequestTimeout
timeoutParam := r.URL.Query().Get("timeout")
if timeoutParam != "" {
    value, err := time.ParseDuration(timeoutParam)
    if err == nil {
        requestTimeout = value
    }
}
```

`r.URL.Query().Get` returns `""` when the parameter is absent.
`time.ParseDuration` is Go standard library, external to this repository;
it is passed in as `parse : String → Option Int` (`none` = parse error,
`some v` = the parsed duration in nanoseconds). -/

/-- The request timeout the constant-configured `metricsHandler` ends up
using, given the raw `timeout` query parameter and the duration parser. -/
def requestTimeoutOf (timeoutParam : String)
    (parse : String → Option Int) : Int :=
  if timeoutParam ≠ "" then
    match parse timeoutParam with
    | some value => value
    | none => defaultRequestTimeout
  else defaultRequestTimeout

/-! ## `getProvider` (flag-configured variant)

```go
func getProvider(ctx context.Context) (*gophercloud.ProviderClient, error) {
    ...
    provider, err := openstack.NewClient(os.Getenv("OS_AUTH_URL"))
    if err != nil { return nil, fmt.Errorf("cannot create OpenStack client: %s", err) }
    provider.Context = ctx
    err = openstack.AuthenticateV3(provider, &opts, gophercloud.EndpointOpts{})
    if err != nil { return nil, fmt.Errorf("authentication failure: %s", err) }
    return provider, err
}
```

`openstack.NewClient` and `openstack.AuthenticateV3` belong to
gophercloud, external to this repository, so their outcomes are
parameters.  A `gophercloud.ProviderClient` is modelled by the fields this
code touches: its HTTP context (`nil` after `NewClient`, i.e. `none`). -/

/-- The slice of a `gophercloud.ProviderClient` this program manipulates:
the base URL and the `Context` field governing its HTTP requests. -/
structure ProviderClient where
  authUrl : String
  context : Option Ctx
  deriving DecidableEq, Repr

/-- `getProvider(ctx)`: `newClientRes` is the outcome of
`openstack.NewClient(os.Getenv("OS_AUTH_URL"))`, `authRes` the outcome of
`openstack.AuthenticateV3` on the client it is handed. -/
def getProvider (ctx : Ctx) (newClientRes : Except String ProviderClient)
    (authRes : ProviderClient → Except String Unit) :
    Except String ProviderClient :=
  match newClientRes with
  | Except.error e => Except.error ("cannot create OpenStack client: " ++ e)
  | Except.ok provider₀ =>
    let provider := { provider₀ with context := some ctx }
    match authRes provider with
    | Except.error e => Except.error ("authentication failure: " ++ e)
    | Except.ok _ => Except.ok provider

/-! ## Garbage collector retention

The garbage-collector loop itself (`runGarbageCollector`) lives in a file
that is not part of this source set; only its retention constants are in
main.go. -/

/-- Modelled from the spec: `runGarbageCollector` is absent from the
sources; the spec says the collector deletes every candidate resource
whose age exceeds the fixed retention threshold
`garbageCollectorResourceAge`. -/
def isDeletionCandidate (age : Int) : Bool :=
  decide (garbageCollectorResourceAge < age)

/-! ## `createName` (flag-configured variant)

```go
func createName() string {
    return resourceTag + "-" + tools.RandomString("", 8) + "-" +
        strconv.FormatInt(time.Now().Unix(), 10)
}
```

`tools.RandomString("", 8)` (gophercloud acceptance tooling, external)
draws 8 characters from an alphanumeric alphabet, so the random suffix
never contains a dash; it is a parameter here, with that fact a
hypothesis where needed.  `time.Now().Unix()` is the creation instant in
seconds; Unix timestamps of any run of this program are non-negative, so
it is a `Nat`.  `strconv.FormatInt(·, 10)` is embedded as the decimal
formatter `formatNat` below. -/

/-- The decimal digit character for `d < 10` (ASCII `'0' + d`). -/
def digitChar (d : Nat) : Char := Char.ofNat (48 + d)

/-- Decimal digits of `n`, most significant first: the embedding of
`strconv.FormatInt(n, 10)` for non-negative `n`. -/
def toDecimal (n : Nat) : List Char :=
  if h : n < 10 then [digitChar n]
  else toDecimal (n / 10) ++ [digitChar (n % 10)]
  decreasing_by
    have h10 : 10 ≤ n := Nat.le_of_not_lt h
    exact Nat.div_lt_self (Nat.lt_of_lt_of_le (by omega) h10) (by omega)

/-- `strconv.FormatInt(n, 10)` for a non-negative `n`. -/
def formatNat (n : Nat) : String := String.mk (toDecimal n)

/-- `createName()` executed when `time.Now().Unix()` is `ts` and
`tools.RandomString("", 8)` returns `rand`. -/
def createName (ts : Nat) (rand : String) : String :=
  resourceTag ++ "-" ++ rand ++ "-" ++ formatNat ts

/-- Left-to-right decimal parser with accumulator (the reading-back of a
name's timestamp segment). -/
def parseDecimalAux : List Char → Nat → Option Nat
  | [], acc => some acc
  | c :: cs, acc =>
    if 48 ≤ c.toNat ∧ c.toNat ≤ 57 then
      parseDecimalAux cs (acc * 10 + (c.toNat - 48))
    else none

/-- Parse a non-empty all-digit string back to a `Nat`. -/
def parseDecimal (s : String) : Option Nat :=
  match s.data with
  | [] => none
  | l => parseDecimalAux l 0

/-- Split a character list at every occurrence of `c` (the `'-'`-separated
segments of a resource name). -/
def splitCh (c : Char) : List Char → List (List Char)
  | [] => [[]]
  | x :: xs =>
    if x = c then [] :: splitCh c xs
    else
      match splitCh c xs with
      | [] => [[x]]
      | y :: ys => (x :: y) :: ys

/-- The `'-'`-separated segments of a string. -/
def dashSegments (s : String) : List String :=
  (splitCh (Char.ofNat 45) s.data).map String.mk

/-! ## Lemmas about the decimal formatter and parser -/

theorem toDecimal_ne_nil (n : Nat) : toDecimal n ≠ [] := by
  rw [toDecimal]
  by_cases h : n < 10 <;> simp [h]

theorem digitChar_toNat (d : Nat) (h : d < 10) :
    (digitChar d).toNat = 48 + d := by
  interval_cases d <;> decide

theorem digitChar_isDigit (d : Nat) (h : d < 10) :
    48 ≤ (digitChar d).toNat ∧ (digitChar d).toNat ≤ 57 := by
  rw [digitChar_toNat d h]; omega

theorem mem_toDecimal_digit (n : Nat) :
    ∀ c ∈ toDecimal n, 48 ≤ c.toNat ∧ c.toNat ≤ 57 := by
  induction n using Nat.strong_induction_on with
  | _ n ih =>
    rw [toDecimal]
    by_cases h : n < 10
    · simpa [h] using digitChar_isDigit n h
    · intro c hc
      simp only [dif_neg h, List.mem_append, List.mem_singleton] at hc
      rcases hc with hc | hc
      · exact ih (n / 10) (Nat.div_lt_self (by omega) (by omega)) c hc
      · subst hc
        exact digitChar_isDigit (n % 10) (Nat.mod_lt _ (by omega))

theorem dash_not_mem_toDecimal (n : Nat) :
    Char.ofNat 45 ∉ toDecimal n := by
  intro hmem
  have h := mem_toDecimal_digit n _ hmem
  have h45 : (Char.ofNat 45).toNat = 45 := by decide
  omega

theorem parseDecimalAux_append (a b : List Char) (acc : Nat) :
    parseDecimalAux (a ++ b) acc =
      (parseDecimalAux a acc).bind (parseDecimalAux b) := by
  induction a generalizing acc with
  | nil => simp [parseDecimalAux]
  | cons c cs ih =>
    simp only [List.cons_append, parseDecimalAux]
    by_cases hc : 48 ≤ c.toNat ∧ c.toNat ≤ 57 <;> simp [hc, ih]

theorem parseDecimalAux_toDecimal (n : Nat) :
    ∀ acc, parseDecimalAux (toDecimal n) acc =
      some (acc * 10 ^ (toDecimal n).length + n) := by
  induction n using Nat.strong_induction_on with
  | _ n ih =>
    intro acc
    rw [toDecimal]
    by_cases h : n < 10
    · simp only [dif_pos h, List.length_singleton, pow_one]
      have hd := digitChar_toNat n h
      simp only [parseDecimalAux, hd]
      rw [if_pos (by omega)]
      refine congrArg some ?_
      omega
    · simp only [dif_neg h, List.length_append, List.length_singleton]
      rw [parseDecimalAux_append,
        ih (n / 10) (Nat.div_lt_self (by omega) (by omega)) acc]
      have h10 : n % 10 < 10 := Nat.mod_lt _ (by omega)
      have hd := digitChar_toNat (n % 10) h10
      simp only [Option.some_bind, parseDecimalAux, hd]
      rw [if_pos (by omega)]
      refine congrArg some ?_
      have hsub : 48 + n % 10 - 48 = n % 10 := by omega
      rw [hsub]
      calc (acc * 10 ^ (toDecimal (n / 10)).length + n / 10) * 10 + n % 10
          = acc * (10 ^ (toDecimal (n / 10)).length * 10) +
              (n / 10 * 10 + n % 10) := by ring
        _ = acc * 10 ^ ((toDecimal (n / 10)).length + 1) + n := by
            rw [pow_succ]
            congr 1
            omega

theorem parseDecimal_formatNat (n : Nat) :
    parseDecimal (formatNat n) = some n := by
  have hmain := parseDecimalAux_toDecimal n 0
  cases hl : toDecimal n with
  | nil => exact absurd hl (toDecimal_ne_nil n)
  | cons c cs =>
    rw [hl] at hmain
    simpa [parseDecimal, formatNat, hl] using hmain

/-! ## Lemmas about dash splitting -/

theorem splitCh_ne_nil (c : Char) (l : List Char) : splitCh c l ≠ [] := by
  induction l with
  | nil => simp [splitCh]
  | cons x xs ih =>
    simp only [splitCh]
    by_cases hx : x = c
    · simp [hx]
    · simp only [if_neg hx]
      cases h : splitCh c xs <;> simp

theorem splitCh_append (c : Char) (a b : List Char) :
    splitCh c (a ++ c :: b) = splitCh c a ++ splitCh c b := by
  induction a with
  | nil => simp [splitCh]
  | cons x xs ih =>
    by_cases hx : x = c
    · simp [splitCh, hx, ih]
    · simp only [List.cons_append, splitCh, if_neg hx]
      simp only [List.append_eq]
      rw [ih]
      cases h : splitCh c xs with
      | nil => exact absurd h (splitCh_ne_nil c xs)
      | cons y ys => simp [h]

theorem splitCh_of_not_mem (c : Char) (a : List Char) (h : c ∉ a) :
    splitCh c a = [a] := by
  induction a with
  | nil => rfl
  | cons x xs ih =>
    simp only [List.mem_cons, not_or] at h
    have hxne : x ≠ c := fun he => h.1 he.symm
    simp [splitCh, if_neg hxne, ih h.2]

theorem dashSegments_createName (ts : Nat) (rand : String)
    (hr : Char.ofNat 45 ∉ rand.data) :
    dashSegments (createName ts rand) =
      ["openstack", "client", "exporter", rand, formatNat ts] := by
  have hdata : (createName ts rand).data =
      resourceTag.data ++ Char.ofNat 45 ::
        (rand.data ++ Char.ofNat 45 :: (formatNat ts).data) := by
    simp [createName, String.data_append]
  have hfmt : (formatNat ts).data = toDecimal ts := rfl
  rw [dashSegments, hdata, splitCh_append, splitCh_append,
    splitCh_of_not_mem _ _ hr, hfmt,
    splitCh_of_not_mem _ _ (dash_not_mem_toDecimal ts)]
  have htag : splitCh (Char.ofNat 45) resourceTag.data =
      ["openstack".data, "client".data, "exporter".data] := by decide
  rw [htag]
  simp [List.map_append, formatNat]

/-! ## Claim theorems -/

/-- C1: the claim states the metrics response is never written before every
started probe goroutine has returned, for every flag combination.  In the
flag-configured variant `wg.Wait()` sits inside the
`if disableObjectStore != true` block, so with the object store disabled
and the instance probe enabled the handler serves while `spawnMain` may
still be running: the claim fails there (and holds in the four other
configurations, including the constant-configured main.go). -/
theorem metricsHandler_serve_before_spawn_returns :
    pendingAtServe (metricsHandlerFlagTrace false true) = [Probe.spawn] ∧
    pendingAtServe (metricsHandlerFlagTrace false false) = [] ∧
    pendingAtServe (metricsHandlerFlagTrace true false) = [] ∧
    pendingAtServe (metricsHandlerFlagTrace true true) = [] ∧
    pendingAtServe metricsHandlerConstTrace = [] := by decide

/-- C2: `step` sets the gauge labelled with the step name to the current
time unconditionally (in particular when the deadline has already
elapsed), and returns a non-nil error exactly when the context is already
done at the time of the check. -/
theorem step_gauge_and_error (ctx : Ctx) (now : Int)
    (timing : String → Option Int) (name : String) :
    (step ctx now timing name).gauge name = some now ∧
    ((step ctx now timing name).err ≠ none ↔ ctxDoneAt ctx now = true) := by
  constructor
  · simp [step]
  · by_cases h : ctxDoneAt ctx now <;> simp [step, h]

/-- C3: every generated name is `resourceTag ++ "-" ++ rand ++ "-" ++
decimal timestamp` (so the tag segment of the
`{tag}-{random suffix}-{unix timestamp}` form is the fixed constant), the
final `'-'`-separated segment is the formatted timestamp, and that segment
parses back to exactly the creation instant.  The hypothesis records that
`tools.RandomString` draws from an alphanumeric alphabet, so the random
suffix never contains a dash. -/
theorem createName_spec (ts : Nat) (rand : String)
    (hr : Char.ofNat 45 ∉ rand.data) :
    (createName ts rand).data =
      resourceTag.data ++ Char.ofNat 45 ::
        (rand.data ++ Char.ofNat 45 :: (formatNat ts).data) ∧
    (dashSegments (createName ts rand)).getLast? = some (formatNat ts) ∧
    parseDecimal (formatNat ts) = some ts := by
  refine ⟨?_, ?_, parseDecimal_formatNat ts⟩
  · simp [createName, String.data_append]
  · rw [dashSegments_createName ts rand hr]
    rfl

/-- Witness for C3 at `ts = 1700000000`, `rand = "aB3xY9qW"`. -/
theorem createName_spec_witness :
    Char.ofNat 45 ∉ "aB3xY9qW".data ∧
    ((createName 1700000000 "aB3xY9qW").data =
        resourceTag.data ++ Char.ofNat 45 ::
          ("aB3xY9qW".data ++ Char.ofNat 45 ::
            (formatNat 1700000000).data) ∧
      (dashSegments (createName 1700000000 "aB3xY9qW")).getLast? =
        some (formatNat 1700000000) ∧
      parseDecimal (formatNat 1700000000) = some 1700000000) :=
  ⟨by decide, createName_spec 1700000000 "aB3xY9qW" (by decide)⟩

/-- C4: an absent (`""`) or unparseable `timeout` query parameter leaves
the request timeout at `defaultRequestTimeout`, a parseable one is used as
the deadline, and the request is served either way (the handler trace
always reaches `serve`). -/
theorem metricsHandler_timeout_fallback (parse : String → Option Int)
    (param : String) :
    requestTimeoutOf "" parse = defaultRequestTimeout ∧
    (parse param = none →
      requestTimeoutOf param parse = defaultRequestTimeout) ∧
    (∀ v : Int, param ≠ "" → parse param = some v →
      requestTimeoutOf param parse = v) ∧
    HEvent.serve ∈ metricsHandlerConstTrace := by
  refine ⟨by simp [requestTimeoutOf], ?_, ?_, by decide⟩
  · intro h
    by_cases hp : param = "" <;> simp [requestTimeoutOf, hp, h]
  · intro v hne hp
    simp [requestTimeoutOf, hne, hp]

/-- Witness for C4: an unparseable parameter falls back to the default, a
parseable one is adopted. -/
theorem metricsHandler_timeout_fallback_witness :
    requestTimeoutOf "banana" (fun _ => none) = defaultRequestTimeout ∧
    requestTimeoutOf "3s"
        (fun s => if s = "3s" then some (3 * timeSecond) else none) =
      3 * timeSecond :=
  ⟨(metricsHandler_timeout_fallback (fun _ => none) "banana").2.1 rfl,
   (metricsHandler_timeout_fallback
      (fun s => if s = "3s" then some (3 * timeSecond) else none)
      "3s").2.2.1 (3 * timeSecond) (by decide) rfl⟩

/-- C5: `metricsHandler` creates one context with the request timeout and
hands that same context to every probe goroutine it starts, in every flag
configuration (the constant-configured variant is the configuration
`false`/`false`). -/
theorem metricsHandler_shared_ctx (now rt : Int) (dInst dObj : Bool) :
    (metricsHandlerCtxPlumbing now rt dInst dObj).1 = withTimeout now rt ∧
    ∀ pc ∈ (metricsHandlerCtxPlumbing now rt dInst dObj).2,
      pc.2 = (metricsHandlerCtxPlumbing now rt dInst dObj).1 := by
  refine ⟨rfl, fun pc hpc => ?_⟩
  cases dInst <;> cases dObj <;>
      simp_all [metricsHandlerCtxPlumbing] <;>
    rcases hpc with h | h <;> simp [h]

/-- Witness for C5: in the both-probes configuration, the spawn probe is
started and receives the handler's context. -/
theorem metricsHandler_shared_ctx_witness :
    (metricsHandlerCtxPlumbing 0 5 false false).1 = withTimeout 0 5 ∧
    (Probe.spawn, withTimeout 0 5).2 =
      (metricsHandlerCtxPlumbing 0 5 false false).1 :=
  ⟨(metricsHandler_shared_ctx 0 5 false false).1,
   (metricsHandler_shared_ctx 0 5 false false).2
     (Probe.spawn, withTimeout 0 5) (by decide)⟩

/-- C6: whenever `getProvider` returns a client, that client's `Context`
field is the context the handler passed in, so the client's network calls
run under the scrape's shared deadline. -/
theorem getProvider_binds_shared_ctx (ctx : Ctx)
    (ncr : Except String ProviderClient)
    (ar : ProviderClient → Except String Unit) (p : ProviderClient)
    (h : getProvider ctx ncr ar = Except.ok p) :
    p.context = some ctx := by
  cases ncr with
  | error e => simp [getProvider] at h
  | ok q =>
    simp only [getProvider] at h
    cases har : ar { q with context := some ctx } with
    | error e =>
      rw [har] at h
      simp at h
    | ok u =>
      rw [har] at h
      simp only [Except.ok.injEq] at h
      subst h
      rfl

/-- Witness for C6 with a successful client creation and authentication. -/
theorem getProvider_binds_shared_ctx_witness :
    (ProviderClient.mk "https://auth.example" (some ⟨7⟩)).context =
      some (⟨7⟩ : Ctx) :=
  getProvider_binds_shared_ctx ⟨7⟩
    (Except.ok ⟨"https://auth.example", none⟩)
    (fun _ => Except.ok ())
    ⟨"https://auth.example", some ⟨7⟩⟩ rfl

/-- C7: the retention threshold (15 minutes) strictly exceeds the default
request timeout (59 seconds), so any resource whose age is still within
the default deadline is below the threshold and not a deletion
candidate. -/
theorem gcRetention_exceeds_defaultTimeout :
    defaultRequestTimeout < garbageCollectorResourceAge ∧
    ∀ age : Int, 0 ≤ age → age ≤ defaultRequestTimeout →
      age < garbageCollectorResourceAge ∧
        isDeletionCandidate age = false := by
  refine ⟨by decide, fun age h0 hle => ?_⟩
  simp only [isDeletionCandidate, garbageCollectorResourceAge,
    defaultRequestTimeout, timeMinute, timeSecond,
    decide_eq_false_iff_not, not_lt] at *
  omega

/-- Witness for C7 at age 30 seconds. -/
theorem gcRetention_exceeds_defaultTimeout_witness :
    defaultRequestTimeout < garbageCollectorResourceAge ∧
    ((30 : Int) * timeSecond < garbageCollectorResourceAge ∧
      isDeletionCandidate (30 * timeSecond) = false) :=
  ⟨gcRetention_exceeds_defaultTimeout.1,
   gcRetention_exceeds_defaultTimeout.2 (30 * timeSecond)
     (by decide) (by decide)⟩

/-- C8: `step` is a synchronous checkpoint: its effect trace is exactly
one gauge write followed by one non-blocking poll of the context — no
blocking effect and no retry, whatever the context's state. -/
theorem step_nonblocking (ctx : Ctx) (now : Int)
    (timing : String → Option Int) (name : String) :
    (step ctx now timing name).effects =
      [Effect.setGauge name now, Effect.pollDone] ∧
    ((step ctx now timing name).effects.all
      (fun e => !e.blocking)) = true := by
  exact ⟨rfl, rfl⟩

/-- C9: the flag-configured handler starts the spawn probe exactly when
`disableInstance` is false and the object-store probe exactly when
`disableObjectStore` is false, and starts nothing else. -/
theorem metricsHandlerFlag_started_probes (dInst dObj : Bool) :
    startedProbes (metricsHandlerFlagTrace dInst dObj) =
      (if dInst = false then [Probe.spawn] else []) ++
      (if dObj = false then [Probe.objectStore] else []) := by
  cases dInst <;> cases dObj <;> rfl

/-- C10: a `timeout` parameter that parses to a non-positive duration is
adopted as the request timeout (no positivity check), and the resulting
context is already done at the instant it is created. -/
theorem metricsHandler_accepts_nonpositive_timeout
    (parse : String → Option Int) (param : String) (v now : Int)
    (hne : param ≠ "") (hp : parse param = some v) (hv : v ≤ 0) :
    requestTimeoutOf param parse = v ∧
    ctxDoneAt (withTimeout now (requestTimeoutOf param parse)) now =
      true := by
  have hreq : requestTimeoutOf param parse = v := by
    simp [requestTimeoutOf, hne, hp]
  refine ⟨hreq, ?_⟩
  rw [hreq]
  simp only [ctxDoneAt, withTimeout, decide_eq_true_eq]
  omega

/-- Witness for C10 at parameter `"-5s"` parsing to −5 seconds. -/
theorem metricsHandler_accepts_nonpositive_timeout_witness :
    requestTimeoutOf "-5s"
        (fun s => if s = "-5s" then some (-5 * timeSecond) else none) =
      -5 * timeSecond ∧
    ctxDoneAt
      (withTimeout 12
        (requestTimeoutOf "-5s"
          (fun s => if s = "-5s" then some (-5 * timeSecond) else none)))
      12 = true :=
  metricsHandler_accepts_nonpositive_timeout
    (fun s => if s = "-5s" then some (-5 * timeSecond) else none)
    "-5s" (-5 * timeSecond) 12 (by decide) rfl (by decide)

end OpenStackExporter
